import Mathlib

/-!
Verification of the analytics engine of the herflowstate PWA.

The embedding translates `src/utils/goalOptimization.ts` and
`src/lib/mood-analytics.ts` (together with the record types from
`src/types/goals.ts` and `src/types/mood-tracker.ts`) into Lean.

Modelling conventions:
* JavaScript numbers are modelled as exact rationals (`ℚ`) wherever the code
  uses only field operations, and as reals (`ℝ`) where `Math.sqrt`,
  `Math.exp` or `Math.log` appear.
* A JavaScript `0/0` (NaN) or `x/0` (±Infinity) outcome is modelled
  explicitly with `Option` (`none` = not a finite number) at the places where
  it can arise; it is never silently collapsed to `0`.
* `Array.prototype.sort(cmp)` sorts in place and is stable; the sorted order
  is modelled with `List.insertionSort` on the comparator's ordering, and the
  in-place mutation is made explicit by functions that return the state of
  the caller's array after the call.
* `Date` values are modelled by their millisecond timestamps (`ℚ`).
-/

namespace HerFlow

open Finset

/-- The constant `1000 * 60 * 60 * 24` (milliseconds per day) used throughout
`goalOptimization.ts`. -/
def msPerDay : ℚ := 1000 * 60 * 60 * 24

/-- `GoalProgress` (src/types/goals.ts): one progress sample.  `date` is the
millisecond timestamp of the sample; display-only fields are omitted. -/
structure GoalProgress where
  date : ℚ
  value : ℚ
deriving DecidableEq

/-- The numeric fields of `Goal` (src/types/goals.ts) used by
`GoalOptimizer`.  `createdAt` and `deadline` are millisecond timestamps. -/
structure Goal where
  targetValue : ℚ
  currentValue : ℚ
  createdAt : ℚ
  deadline : ℚ
deriving DecidableEq

/-- The ordering used by the comparator `(a, b) => a.date.getTime() -
b.date.getTime()` on progress samples. -/
def GoalProgress.dateLe (a b : GoalProgress) : Prop := a.date ≤ b.date

instance : DecidableRel GoalProgress.dateLe :=
  fun a b => (inferInstance : Decidable (a.date ≤ b.date))

instance : IsTotal GoalProgress GoalProgress.dateLe :=
  ⟨fun a b => le_total a.date b.date⟩

instance : IsTrans GoalProgress GoalProgress.dateLe :=
  ⟨fun _ _ _ h h' => le_trans h h'⟩

/-- The result of `progressData.sort((a, b) => a.date.getTime() -
b.date.getTime())`.  JavaScript's sort is stable, which insertion sort on the
(total) `dateLe` ordering reproduces.  The sort happens in place: functions
below that model a call which sorts also expose the caller's array state
after the call. -/
def sortProgress (pd : List GoalProgress) : List GoalProgress :=
  pd.insertionSort GoalProgress.dateLe

/-- `GoalOptimizer.calculateAverageDailyProgress` (goalOptimization.ts,
lines 46-64): pooled Δvalue over Δdays across consecutive pairs of the
date-sorted samples, counting only pairs with `days > 0`. -/
def calculateAverageDailyProgress (pd : List GoalProgress) : ℚ :=
  if pd.length < 2 then 0
  else
    let s := sortProgress pd
    let steps := (s.zip s.tail).filter (fun p => 0 < (p.2.date - p.1.date) / msPerDay)
    let totalProgress := (steps.map (fun p => p.2.value - p.1.value)).sum
    let totalDays := (steps.map (fun p => (p.2.date - p.1.date) / msPerDay)).sum
    if 0 < totalDays then totalProgress / totalDays else 0

/-- The positive-only consecutive deltas (`dailyChanges` in
`calculateConsistencyScore`): `Math.max(0, change)` over consecutive pairs of
the date-sorted samples. -/
def dailyChanges (pd : List GoalProgress) : List ℚ :=
  let s := sortProgress pd
  (s.zip s.tail).map (fun p => max 0 (p.2.value - p.1.value))

/-- Mean of the positive-only deltas. -/
def changesMean (pd : List GoalProgress) : ℚ :=
  (dailyChanges pd).sum / (dailyChanges pd).length

/-- Population variance of the positive-only deltas. -/
def changesVariance (pd : List GoalProgress) : ℚ :=
  ((dailyChanges pd).map (fun v => (v - changesMean pd) ^ 2)).sum /
    (dailyChanges pd).length

/-- `GoalOptimizer.calculateConsistencyScore` (goalOptimization.ts, lines
69-89): fewer than 3 samples returns the neutral default 50; otherwise
`max(0, 100 - cv*100)` where `cv = stdDev/mean` when `mean > 0` and `1`
otherwise. -/
noncomputable def calculateConsistencyScore (pd : List GoalProgress) : ℝ :=
  if pd.length < 3 then 50
  else
    let cv : ℝ :=
      if 0 < changesMean pd then
        Real.sqrt ((changesVariance pd : ℝ)) / (changesMean pd : ℝ)
      else 1
    max 0 (100 - cv * 100)

/-- `theoreticalRate = goal.targetValue / (timeTotal / msPerDay)`
(goalOptimization.ts, line 27). -/
def theoreticalRate (g : Goal) : ℚ :=
  g.targetValue / ((g.deadline - g.createdAt) / msPerDay)

/-- The `dailyProgress` local of `calculateGoalMetrics` (lines 18-20): the
pooled rate when there is more than one sample, otherwise
`currentValue / elapsed days`. -/
def dailyProgress (now : ℚ) (g : Goal) (pd : List GoalProgress) : ℚ :=
  if 1 < pd.length then calculateAverageDailyProgress pd
  else g.currentValue / ((now - g.createdAt) / msPerDay)

/-- `GoalMetrics` (src/types/goals.ts).  `projectedCompletion` is the
millisecond timestamp of the projected `Date`. -/
structure GoalMetrics where
  completionRate : ℚ
  timeRemaining : ℚ
  averageDailyProgress : ℚ
  projectedCompletion : ℚ
  efficiencyScore : ℚ
  consistencyScore : ℝ

/-- `GoalOptimizer.calculateGoalMetrics` (goalOptimization.ts, lines 9-41).
`now` (the call instant, `new Date()` in the source) is an explicit input of
the model. -/
noncomputable def calculateGoalMetrics (now : ℚ) (g : Goal)
    (pd : List GoalProgress) : GoalMetrics :=
  let timeRemaining := max 0 (g.deadline - now) / msPerDay
  let completionRate := g.currentValue / g.targetValue * 100
  let dp := dailyProgress now g pd
  let projectedDays := (g.targetValue - g.currentValue) / max dp (1 / 1000)
  { completionRate := completionRate
    timeRemaining := timeRemaining
    averageDailyProgress := dp
    projectedCompletion := now + projectedDays * msPerDay
    efficiencyScore := min 100 (dp / theoreticalRate g * 100)
    consistencyScore := calculateConsistencyScore pd }

/-- The state of the caller's `progressData` array after
`calculateGoalMetrics` returns.  `Array.prototype.sort` mutates in place: it
runs inside `calculateAverageDailyProgress` (reached when the array has at
least 2 samples, after the `length < 2` guard) and inside
`calculateConsistencyScore` (reached when it has at least 3, after the
`length < 3` guard); with fewer than 2 samples no sort runs and the array is
untouched. -/
def goalMetricsArrayAfter (pd : List GoalProgress) : List GoalProgress :=
  if 2 ≤ pd.length then sortProgress pd else pd

/-! ### Mood analytics data model (src/types/mood-tracker.ts) -/

/-- A weekday name, as produced by
`toLocaleDateString('en-US', { weekday: 'long' })`. -/
inductive Weekday
  | sunday | monday | tuesday | wednesday | thursday | friday | saturday
deriving DecidableEq

/-- The fixed key order of the `dayOfWeekMoods` object literal in
`detectWeeklyPatterns` (string keys keep insertion order). -/
def weekdayList : List Weekday :=
  [.sunday, .monday, .tuesday, .wednesday, .thursday, .friday, .saturday]

/-- The numeric metric keys of a mood entry (`MoodEntryNumericKeys`). -/
inductive Metric
  | mood | energy | stress | sleep | hydration | exercise | nutrition
deriving DecidableEq

/-- `MoodEntry` (src/types/mood-tracker.ts): `date` is the millisecond
timestamp of `new Date(entry.date)` and `weekday` is that date's weekday
name (the host-calendar lookup `toLocaleDateString` is abstracted into a
field of the entry).  The seven numeric measures are kept; text fields are
omitted. -/
structure MoodEntry where
  date : ℚ
  weekday : Weekday
  mood : ℚ
  energy : ℚ
  stress : ℚ
  sleep : ℚ
  hydration : ℚ
  exercise : ℚ
  nutrition : ℚ
deriving DecidableEq

/-- `MoodAnalytics.getEntryValue` (mood-analytics.ts, lines 339-349): the raw
numeric field, except that stress is inverted as `10 - value`. -/
def getEntryValue (e : MoodEntry) : Metric → ℚ
  | .mood => e.mood
  | .energy => e.energy
  | .stress => 10 - e.stress
  | .sleep => e.sleep
  | .hydration => e.hydration
  | .exercise => e.exercise
  | .nutrition => e.nutrition

/-- The ordering of the constructor comparator
`(a, b) => new Date(a.date).getTime() - new Date(b.date).getTime()`. -/
def MoodEntry.dateLe (a b : MoodEntry) : Prop := a.date ≤ b.date

instance : DecidableRel MoodEntry.dateLe :=
  fun a b => (inferInstance : Decidable (a.date ≤ b.date))

instance : IsTotal MoodEntry MoodEntry.dateLe :=
  ⟨fun a b => le_total a.date b.date⟩

instance : IsTrans MoodEntry MoodEntry.dateLe :=
  ⟨fun _ _ _ h h' => le_trans h h'⟩

/-- `this.entries` after the `MoodAnalytics` constructor ran
(mood-analytics.ts, lines 218-220): `entries.sort(...)` sorted by date.
Since `Array.prototype.sort` works in place, this is also the state of the
caller's array after construction. -/
def moodAnalyticsEntries (entries : List MoodEntry) : List MoodEntry :=
  entries.insertionSort MoodEntry.dateLe

/-- `DEFAULT_ANALYTICS_CONFIG.minEntriesForCorrelation`
(src/types/mood-tracker.ts). -/
def minEntriesForCorrelation : ℕ := 7

/-- `DEFAULT_ANALYTICS_CONFIG.minEntriesForTrends`. -/
def minEntriesForTrends : ℕ := 14

/-- `DEFAULT_ANALYTICS_CONFIG.confidenceThreshold`. -/
def confidenceThreshold : ℚ := 5 / 100

/-- `DEFAULT_ANALYTICS_CONFIG.correlationThresholds`. -/
def strongThreshold : ℚ := 5 / 10

/-- See `strongThreshold`. -/
def moderateThreshold : ℚ := 3 / 10

/-- See `strongThreshold`. -/
def weakThreshold : ℚ := 1 / 10

/-! ### Pearson correlation (mood-analytics.ts, lines 225-245)

The sums are exact rationals.  `Math.sqrt` forces the coefficient `r` and
the p-value into `ℝ`. -/

/-- `x.reduce((sum, val) => sum + val, 0)`. -/
def sumList (x : List ℚ) : ℚ := x.sum

/-- `x.reduce((sum, val) => sum + val * val, 0)`. -/
def sumSqList (x : List ℚ) : ℚ := (x.map (fun v => v * v)).sum

/-- `x.reduce((sum, val, i) => sum + val * y[i], 0)`: the sum runs over the
indices of `x`; an out-of-range read of `y` (possible only for unequal
lengths, which every call site and claim excludes) is modelled as 0. -/
def sumProd (x y : List ℚ) : ℚ :=
  ∑ i ∈ Finset.range x.length, x.getD i 0 * y.getD i 0

/-- The numerator `n * sumXY - sumX * sumY` of the product-moment formula,
with `n = x.length`. -/
def pearsonNumerator (x y : List ℚ) : ℚ :=
  (x.length : ℚ) * sumProd x y - sumList x * sumList y

/-- The square of the denominator of the product-moment formula:
`(n*sumX2 - sumX^2) * (n*sumY2 - sumY^2)`, with `n = x.length` in both
factors exactly as in the source. -/
def pearsonDenomSq (x y : List ℚ) : ℚ :=
  ((x.length : ℚ) * sumSqList x - sumList x * sumList x) *
    ((x.length : ℚ) * sumSqList y - sumList y * sumList y)

/-- `MoodAnalytics.logGamma` (lines 277-292), a Lanczos approximation.  The
`for` loop over the six coefficients is unrolled. -/
noncomputable def logGamma (x : ℝ) : ℝ :=
  let ser : ℝ := 1.000000000190015
    + 76.18009172947146 / (x + 1)
    - 86.50532032941677 / (x + 2)
    + 24.01409824083091 / (x + 3)
    - 1.231739572450155 / (x + 4)
    + 0.001208650973866179 / (x + 5)
    - 0.000005395239384953 / (x + 6)
  let tmp : ℝ := (x + 5.5) - (x + 0.5) * Real.log (x + 5.5);
  -tmp + Real.log (2.5066282746310005 * ser / x)

/-- The `if (Math.abs(d) < 1e-30) d = 1e-30;` clamp of
`betaContinuedFraction`. -/
noncomputable def cfClamp (v : ℝ) : ℝ :=
  if |v| < 1 / 10 ^ 30 then 1 / 10 ^ 30 else v

/-- The `for (m = 1; m <= maxIter; m++)` loop of
`MoodAnalytics.betaContinuedFraction` (lines 311-331), with the remaining
iteration budget as fuel and state `(c, d, h)`; `d` is stored already
inverted, as in the source after `d = 1 / d`. -/
noncomputable def betaCFLoop (a b x qab qap qam : ℝ) :
    ℕ → ℕ → ℝ → ℝ → ℝ → ℝ
  | 0, _, _, _, h => h
  | fuel + 1, m, c, d, h =>
    let m2 : ℝ := 2 * (m : ℝ)
    let aa1 : ℝ := (m : ℝ) * (b - (m : ℝ)) * x / ((qam + m2) * (a + m2))
    let d1 : ℝ := 1 / cfClamp (1 + aa1 * d)
    let c1 : ℝ := cfClamp (1 + aa1 / c)
    let h1 : ℝ := h * d1 * c1
    let aa2 : ℝ := -((a + (m : ℝ)) * (qab + (m : ℝ))) * x / ((a + m2) * (qap + m2))
    let d2 : ℝ := 1 / cfClamp (1 + aa2 * d1)
    let c2 : ℝ := cfClamp (1 + aa2 / c1)
    let del : ℝ := d2 * c2
    let h2 : ℝ := h1 * del
    if |del - 1| < 3 / 10 ^ 7 then h2
    else betaCFLoop a b x qab qap qam fuel (m + 1) c2 d2 h2

/-- `MoodAnalytics.betaContinuedFraction` (lines 297-334). -/
noncomputable def betaContinuedFraction (a b x : ℝ) : ℝ :=
  let qab := a + b
  let qap := a + 1
  let qam := a - 1
  let d0 : ℝ := 1 / cfClamp (1 - qab * x / qap)
  betaCFLoop a b x qab qap qam 100 1 1 d0 d0

/-- `MoodAnalytics.betaIncomplete` (lines 259-272). -/
noncomputable def betaIncomplete (a b x : ℝ) : ℝ :=
  if x ≤ 0 then 0
  else if 1 ≤ x then 1
  else
    let bt : ℝ := Real.exp (logGamma (a + b) - logGamma a - logGamma b
      + a * Real.log x + b * Real.log (1 - x))
    if x < (a + 1) / (a + b + 2) then bt * betaContinuedFraction a b x / a
    else 1 - bt * betaContinuedFraction b a (1 - x) / b

/-- `MoodAnalytics.tTestPValue` (lines 250-254). -/
noncomputable def tTestPValue (t df : ℝ) : ℝ :=
  betaIncomplete (df / 2) (1 / 2) (df / (df + t * t))

/-- The p-value computed at lines 241-242 as a function of `r` and `n`:
`t = |r| * sqrt((n-2)/(1-r*r))`, `p = tTestPValue(t, n-2)`.  (For `|r| = 1`
the source produces an Infinity here; the claims never touch that case and
the real-division convention `x/0 = 0` of the model is only reached then.) -/
noncomputable def pearsonP (r : ℝ) (n : ℕ) : ℝ :=
  tTestPValue (|r| * Real.sqrt (((n : ℝ) - 2) / (1 - r * r))) ((n : ℝ) - 2)

/-- The result record `{ r, p, n }` of `pearsonCorrelation`. -/
structure PearsonResult where
  r : ℝ
  p : ℝ
  n : ℕ

/-- `MoodAnalytics.pearsonCorrelation` (lines 225-245). -/
noncomputable def pearsonCorrelation (x y : List ℚ) : PearsonResult :=
  if x.length < 3 then ⟨0, 1, x.length⟩
  else
    let denominator : ℝ := Real.sqrt ((pearsonDenomSq x y : ℚ) : ℝ)
    let r : ℝ :=
      if denominator = 0 then 0 else ((pearsonNumerator x y : ℚ) : ℝ) / denominator
    ⟨r, pearsonP r x.length, x.length⟩

/-! ### Linear regression and trend analysis -/

/-- The value record of `linearRegression`.  `r2` is `none` when
`SStot = 0`: the source computes `1 - ssRes/ssTot` with no guard, which in
JavaScript yields `NaN` (for `ssRes = 0`) or `-Infinity` (for `ssRes > 0`) —
not a finite number either way. -/
structure LinReg where
  slope : ℚ
  intercept : ℚ
  r2 : Option ℚ
deriving DecidableEq

/-- The slope denominator `n * sumX2 - sumX * sumX` of `linearRegression`,
with `n = x.length`. -/
def regDenom (x : List ℚ) : ℚ :=
  (x.length : ℚ) * sumSqList x - sumList x * sumList x

/-- `slope = (n*sumXY - sumX*sumY) / (n*sumX2 - sumX*sumX)` of
`linearRegression` (line 404). -/
def regSlope (x y : List ℚ) : ℚ :=
  ((x.length : ℚ) * sumProd x y - sumList x * sumList y) / regDenom x

/-- `intercept = (sumY - slope * sumX) / n` (line 405). -/
def regIntercept (x y : List ℚ) : ℚ :=
  (sumList y - regSlope x y * sumList x) / (x.length : ℚ)

/-- `MoodAnalytics.linearRegression` (mood-analytics.ts, lines 396-417).
The whole result is `none` when the slope denominator `regDenom` is 0 (a
JavaScript division by zero making every component non-finite).  The source
also computes a `sumY2` that it never uses; it is omitted. -/
def linearRegression (x y : List ℚ) : Option LinReg :=
  if regDenom x = 0 then none
  else
    let yMean := sumList y / (x.length : ℚ)
    let ssRes := ∑ i ∈ Finset.range y.length,
      (y.getD i 0 - (regSlope x y * x.getD i 0 + regIntercept x y)) ^ 2
    let ssTot := (y.map (fun v => (v - yMean) ^ 2)).sum
    some ⟨regSlope x y, regIntercept x y,
      if ssTot = 0 then none else some (1 - ssRes / ssTot)⟩

/-- The `direction` labels of `TrendAnalysis`
(src/types/mood-tracker.ts). -/
inductive Direction
  | increasing | decreasing | stable
deriving DecidableEq

/-- `TrendAnalysis` (src/types/mood-tracker.ts).  `magnitude` and
`significance` are `none` when the regression degenerated to NaN. -/
structure TrendAnalysis where
  metric : Metric
  direction : Direction
  magnitude : Option ℚ
  significance : Option ℚ
  timeframe : ℕ
deriving DecidableEq

/-- The fixed metric iteration order of `analyzeTrends` (line 427). -/
def metricList : List Metric :=
  [.mood, .energy, .stress, .sleep, .hydration, .exercise, .nutrition]

/-- `this.entries[0].date`, defaulting to 0 on an empty list (unreachable
behind the `minEntriesForTrends` guard). -/
def firstDate (entries : List MoodEntry) : ℚ :=
  match entries with
  | [] => 0
  | e :: _ => e.date

/-- The day indices `timeIndices` of `analyzeTrends` (lines 431-434). -/
def timeIndices (entries : List MoodEntry) : List ℚ :=
  entries.map (fun e => (e.date - firstDate entries) / msPerDay)

/-- One entry of the trend list (the body of the `metrics.forEach` of
`analyzeTrends`, lines 436-458).  In the `none` (NaN regression) case every
JavaScript comparison with NaN is false, so the direction computed by the
source is `decreasing` and magnitude/significance are NaN. -/
def trendFor (entries : List MoodEntry) (m : Metric) : TrendAnalysis :=
  match linearRegression (timeIndices entries)
      (entries.map (fun e => getEntryValue e m)) with
  | none => ⟨m, .decreasing, none, none, entries.length⟩
  | some reg =>
    let weeklyChange := reg.slope * 7
    ⟨m,
      if |weeklyChange| < 1 / 10 then .stable
      else if 0 < weeklyChange then .increasing else .decreasing,
      some |weeklyChange|, reg.r2, entries.length⟩

/-- The ordering of the final sort `(a, b) => b.significance -
a.significance` (descending significance).  A `none` (NaN) significance
makes the JavaScript comparator return NaN, whose effect on the order is
engine-defined; the model compares via `getD 0`.  Every property stated
below is membership-based and independent of this ordering. -/
def trendGe (a b : TrendAnalysis) : Prop :=
  b.significance.getD 0 ≤ a.significance.getD 0

instance : DecidableRel trendGe :=
  fun a b => (inferInstance : Decidable (b.significance.getD 0 ≤ a.significance.getD 0))

/-- `MoodAnalytics.analyzeTrends` (lines 422-461). -/
def analyzeTrends (entries : List MoodEntry) : List TrendAnalysis :=
  if entries.length < minEntriesForTrends then []
  else (metricList.map (trendFor entries)).insertionSort trendGe

/-! ### Correlation analysis (lines 354-391) -/

/-- The `interpretation` labels of `CorrelationData`. -/
inductive Interpretation
  | strong_positive | moderate_positive | weak_positive
  | weak_negative | moderate_negative | strong_negative | negligible
deriving DecidableEq

/-- `CorrelationData` (src/types/mood-tracker.ts); the capitalized display
string for the factor is represented by the `Metric` itself. -/
structure CorrelationData where
  factor : Metric
  correlation : ℝ
  significance : ℝ
  sampleSize : ℕ
  interpretation : Interpretation

/-- The fixed factor iteration order of `calculateCorrelations`
(line 359). -/
def factorList : List Metric :=
  [.energy, .stress, .sleep, .hydration, .exercise, .nutrition]

/-- The interpretation bucketing of `calculateCorrelations`
(lines 368-379): thresholds on `|r|`, sign of `r`. -/
noncomputable def interpretR (r : ℝ) : Interpretation :=
  if ((strongThreshold : ℚ) : ℝ) ≤ |r| then
    if 0 < r then .strong_positive else .strong_negative
  else if ((moderateThreshold : ℚ) : ℝ) ≤ |r| then
    if 0 < r then .moderate_positive else .moderate_negative
  else if ((weakThreshold : ℚ) : ℝ) ≤ |r| then
    if 0 < r then .weak_positive else .weak_negative
  else .negligible

/-- The body of the `factors.forEach` of `calculateCorrelations`
(lines 362-388). -/
noncomputable def correlationFor (entries : List MoodEntry) (f : Metric) :
    CorrelationData :=
  let res := pearsonCorrelation (entries.map (·.mood))
    (entries.map (fun e => getEntryValue e f))
  ⟨f, res.r, res.p, res.n, interpretR res.r⟩

/-- The ordering of the final sort `(a, b) => Math.abs(b.correlation) -
Math.abs(a.correlation)` (descending `|r|`). -/
def corrGe (a b : CorrelationData) : Prop :=
  |b.correlation| ≤ |a.correlation|

noncomputable instance : DecidableRel corrGe :=
  fun a b => (inferInstance : Decidable (|b.correlation| ≤ |a.correlation|))

/-- `MoodAnalytics.calculateCorrelations` (lines 354-391). -/
noncomputable def calculateCorrelations (entries : List MoodEntry) :
    List CorrelationData :=
  if entries.length < minEntriesForCorrelation then []
  else (factorList.map (correlationFor entries)).insertionSort corrGe

/-! ### Weekly pattern detection (lines 623-666) -/

/-- The mood values pushed into the weekday bucket of `d` by
`detectWeeklyPatterns` (lines 631-634), in entry order. -/
def moodsOn (entries : List MoodEntry) (d : Weekday) : List ℚ :=
  (entries.filter (fun e => decide (e.weekday = d))).map (·.mood)

/-- Number of entries on weekday `d`. -/
def weekdayCount (entries : List MoodEntry) (d : Weekday) : ℕ :=
  (moodsOn entries d).length

/-- Mean mood on weekday `d` (meaningful when the weekday is present). -/
def weekdayMean (entries : List MoodEntry) (d : Weekday) : ℚ :=
  (moodsOn entries d).sum / (weekdayCount entries d : ℚ)

/-- One element of the `dayAverages` array of `detectWeeklyPatterns`. -/
structure DayAverage where
  day : Weekday
  average : ℚ
  count : ℕ
deriving DecidableEq

/-- The `dayAverages` array (lines 636-642): per-weekday average and count,
keeping only weekdays with at least one observation. -/
def dayAverages (entries : List MoodEntry) : List DayAverage :=
  (weekdayList.map (fun d =>
    { day := d
      average := if 0 < weekdayCount entries d then weekdayMean entries d else 0
      count := weekdayCount entries d } )).filter (fun it => decide (0 < it.count))

/-- `Math.max(...)` over a list (0 for the empty spread, which in JavaScript
would be `-Infinity`; unreachable behind the `< 4` guard below). -/
def listMax : List ℚ → ℚ
  | [] => 0
  | a :: rest => rest.foldl max a

/-- `Math.min(...)` over a list; see `listMax`. -/
def listMin : List ℚ → ℚ
  | [] => 0
  | a :: rest => rest.foldl min a

/-- `maxMood` (line 646). -/
def maxWeekdayMean (entries : List MoodEntry) : ℚ :=
  listMax ((dayAverages entries).map (·.average))

/-- `minMood` (line 647). -/
def minWeekdayMean (entries : List MoodEntry) : ℚ :=
  listMin ((dayAverages entries).map (·.average))

/-- `variation` (line 648). -/
def weekdayVariation (entries : List MoodEntry) : ℚ :=
  maxWeekdayMean entries - minWeekdayMean entries

/-- `MoodPattern` (src/types/mood-tracker.ts), keeping the structured
fields; `patternType` is always `'weekly'` here and the description and
recommendation display strings are omitted. -/
structure MoodPattern where
  strength : ℚ
  peakDays : List Weekday
  lowDays : List Weekday
deriving DecidableEq


/-- A fixed 14-day example record set (every weekday observed twice;
Sundays mood 8, Saturdays 6, other days 5) used as concrete witness
input. -/
def sampleWeekEntries : List MoodEntry :=
  [⟨0 * 86400000, .sunday, 8, 5, 5, 7, 8, 30, 5⟩,
   ⟨1 * 86400000, .monday, 5, 5, 5, 7, 8, 30, 5⟩,
   ⟨2 * 86400000, .tuesday, 5, 5, 5, 7, 8, 30, 5⟩,
   ⟨3 * 86400000, .wednesday, 5, 5, 5, 7, 8, 30, 5⟩,
   ⟨4 * 86400000, .thursday, 5, 5, 5, 7, 8, 30, 5⟩,
   ⟨5 * 86400000, .friday, 5, 5, 5, 7, 8, 30, 5⟩,
   ⟨6 * 86400000, .saturday, 6, 5, 5, 7, 8, 30, 5⟩,
   ⟨7 * 86400000, .sunday, 8, 5, 5, 7, 8, 30, 5⟩,
   ⟨8 * 86400000, .monday, 5, 5, 5, 7, 8, 30, 5⟩,
   ⟨9 * 86400000, .tuesday, 5, 5, 5, 7, 8, 30, 5⟩,
   ⟨10 * 86400000, .wednesday, 5, 5, 5, 7, 8, 30, 5⟩,
   ⟨11 * 86400000, .thursday, 5, 5, 5, 7, 8, 30, 5⟩,
   ⟨12 * 86400000, .friday, 5, 5, 5, 7, 8, 30, 5⟩,
   ⟨13 * 86400000, .saturday, 6, 5, 5, 7, 8, 30, 5⟩]

/-- `MoodAnalytics.detectWeeklyPatterns` (lines 623-666). -/
def detectWeeklyPatterns (entries : List MoodEntry) : List MoodPattern :=
  if entries.length < 14 then []
  else if (dayAverages entries).length < 4 then []
  else if weekdayVariation entries < 1 / 2 then []
  else
    [{ strength := min 1 (weekdayVariation entries / 3)
       peakDays := ((dayAverages entries).filter
         (fun d => decide (maxWeekdayMean entries - 3 / 10 ≤ d.average))).map (·.day)
       lowDays := ((dayAverages entries).filter
         (fun d => decide (d.average ≤ minWeekdayMean entries + 3 / 10))).map (·.day) }]

/-! ### Helper lemmas about the in-place sorts -/

theorem length_sortProgress (pd : List GoalProgress) :
    (sortProgress pd).length = pd.length :=
  List.length_insertionSort _ pd

theorem sortProgress_idem (pd : List GoalProgress) :
    sortProgress (sortProgress pd) = sortProgress pd :=
  List.Sorted.insertionSort_eq (List.sorted_insertionSort _ pd)

theorem length_moodAnalyticsEntries (es : List MoodEntry) :
    (moodAnalyticsEntries es).length = es.length :=
  List.length_insertionSort _ es

theorem moodAnalyticsEntries_idem (es : List MoodEntry) :
    moodAnalyticsEntries (moodAnalyticsEntries es) = moodAnalyticsEntries es :=
  List.Sorted.insertionSort_eq (List.sorted_insertionSort _ es)

theorem calculateAverageDailyProgress_sorted (pd : List GoalProgress) :
    calculateAverageDailyProgress (sortProgress pd) = calculateAverageDailyProgress pd := by
  unfold calculateAverageDailyProgress
  rw [length_sortProgress, sortProgress_idem]

theorem dailyChanges_sorted (pd : List GoalProgress) :
    dailyChanges (sortProgress pd) = dailyChanges pd := by
  unfold dailyChanges
  rw [sortProgress_idem]

theorem changesMean_sorted (pd : List GoalProgress) :
    changesMean (sortProgress pd) = changesMean pd := by
  unfold changesMean
  rw [dailyChanges_sorted]

theorem changesVariance_sorted (pd : List GoalProgress) :
    changesVariance (sortProgress pd) = changesVariance pd := by
  unfold changesVariance
  rw [dailyChanges_sorted, changesMean_sorted]

theorem calculateConsistencyScore_sorted (pd : List GoalProgress) :
    calculateConsistencyScore (sortProgress pd) = calculateConsistencyScore pd := by
  unfold calculateConsistencyScore
  rw [length_sortProgress, changesMean_sorted, changesVariance_sorted]

theorem calculateGoalMetrics_sorted (now : ℚ) (g : Goal) (pd : List GoalProgress) :
    calculateGoalMetrics now g (sortProgress pd) = calculateGoalMetrics now g pd := by
  unfold calculateGoalMetrics dailyProgress
  rw [length_sortProgress, calculateAverageDailyProgress_sorted,
    calculateConsistencyScore_sorted]

/-! ### Claim theorems -/

/-- C1 (code bug): on the failing input `x = [0,1,2,3]` (pairwise distinct)
and constant `y = [5,5,5,5]`, `linearRegression` returns slope exactly 0 and
intercept 5, but `SStot = 0` and the unguarded `r2 = 1 - ssRes/ssTot` is
`1 - 0/0`, i.e. NaN (`none` in the model) — not the 0 required by the
spec's convention that R² is 0 when SStot is 0. -/
theorem linearRegression_constant_y_r2_nan :
    linearRegression [0, 1, 2, 3] [5, 5, 5, 5] = some ⟨0, 5, none⟩ := by
  simp [linearRegression, regDenom, regSlope, regIntercept, sumList, sumSqList,
    sumProd, Finset.sum_range_succ]
  norm_num

/-- C2 (code bug): `Array.prototype.sort` is called directly on the
caller-supplied arrays (no defensive copy), so both
`GoalOptimizer.calculateGoalMetrics` (via `calculateAverageDailyProgress`
and `calculateConsistencyScore`) and the `MoodAnalytics` constructor reorder
the caller's array in place whenever it is not already date-sorted: after
the call the array is in sorted order, not the original order. -/
theorem sort_mutates_caller_arrays :
    goalMetricsArrayAfter [⟨86400000, 1⟩, ⟨0, 0⟩] = [⟨0, 0⟩, ⟨86400000, 1⟩] ∧
      goalMetricsArrayAfter [⟨86400000, 1⟩, ⟨0, 0⟩] ≠ [⟨86400000, 1⟩, ⟨0, 0⟩] ∧
      moodAnalyticsEntries
          [⟨86400000, .monday, 5, 5, 5, 7, 8, 30, 5⟩, ⟨0, .sunday, 6, 5, 5, 7, 8, 30, 5⟩]
        = [⟨0, .sunday, 6, 5, 5, 7, 8, 30, 5⟩, ⟨86400000, .monday, 5, 5, 5, 7, 8, 30, 5⟩] ∧
      moodAnalyticsEntries
          [⟨86400000, .monday, 5, 5, 5, 7, 8, 30, 5⟩, ⟨0, .sunday, 6, 5, 5, 7, 8, 30, 5⟩]
        ≠ [⟨86400000, .monday, 5, 5, 5, 7, 8, 30, 5⟩, ⟨0, .sunday, 6, 5, 5, 7, 8, 30, 5⟩] := by
  refine ⟨by decide, by decide, by decide, by decide⟩

/-- C6: for a goal with positive theoretical rate, the efficiency score of
`calculateGoalMetrics` is `min(100, actualDailyRate / theoreticalRate * 100)`;
in particular an actual rate exactly double the theoretical rate scores
exactly 100, not 200. -/
theorem efficiency_score_capped (now : ℚ) (g : Goal) (pd : List GoalProgress)
    (h : 0 < theoreticalRate g) :
    (calculateGoalMetrics now g pd).efficiencyScore
        = min 100 (dailyProgress now g pd / theoreticalRate g * 100) ∧
      (dailyProgress now g pd = 2 * theoreticalRate g →
        (calculateGoalMetrics now g pd).efficiencyScore = 100) := by
  refine ⟨rfl, fun h2 => ?_⟩
  show min 100 (dailyProgress now g pd / theoreticalRate g * 100) = 100
  rw [h2, mul_div_assoc, div_self (ne_of_gt h)]
  norm_num

/-- Witness for C6 at a concrete goal (target 10 over 10 days, theoretical
rate 1/day) and progress history with pooled rate 2/day. -/
theorem efficiency_score_capped_witness :
    0 < theoreticalRate ⟨10, 0, 0, 864000000⟩ ∧
      (calculateGoalMetrics 0 ⟨10, 0, 0, 864000000⟩
        [⟨0, 0⟩, ⟨2 * 86400000, 4⟩]).efficiencyScore = 100 :=
  ⟨by norm_num [theoreticalRate, msPerDay],
    (efficiency_score_capped 0 ⟨10, 0, 0, 864000000⟩ [⟨0, 0⟩, ⟨2 * 86400000, 4⟩]
      (by norm_num [theoreticalRate, msPerDay])).2
      (by norm_num [dailyProgress, calculateAverageDailyProgress, sortProgress,
        List.insertionSort, List.orderedInsert, GoalProgress.dateLe, msPerDay,
        theoreticalRate])⟩

/-- C8: `calculateConsistencyScore` returns the neutral 50 for fewer than 3
samples; with 3 or more samples and a positive mean of the positive-only
consecutive deltas it returns `max(0, 100 - (stddev/mean) * 100)`. -/
theorem consistency_score_spec (pd : List GoalProgress) :
    (pd.length < 3 → calculateConsistencyScore pd = 50) ∧
      (3 ≤ pd.length → 0 < changesMean pd →
        calculateConsistencyScore pd
          = max 0 (100 - Real.sqrt ((changesVariance pd : ℝ))
              / ((changesMean pd : ℝ)) * 100)) := by
  constructor
  · intro h
    simp [calculateConsistencyScore, h]
  · intro h3 hm
    have hlt : ¬ pd.length < 3 := not_lt.mpr h3
    simp [calculateConsistencyScore, hlt, hm]

/-- Witness for C8: a single sample scores 50; three samples with deltas
`[1, 2]` (mean 3/2) score by the CV formula. -/
theorem consistency_score_spec_witness :
    (([⟨0, 5⟩] : List GoalProgress).length < 3 ∧
        calculateConsistencyScore [⟨0, 5⟩] = 50) ∧
      (3 ≤ ([⟨0, 0⟩, ⟨86400000, 1⟩, ⟨172800000, 3⟩] : List GoalProgress).length ∧
        0 < changesMean [⟨0, 0⟩, ⟨86400000, 1⟩, ⟨172800000, 3⟩] ∧
        calculateConsistencyScore [⟨0, 0⟩, ⟨86400000, 1⟩, ⟨172800000, 3⟩]
          = max 0 (100
              - Real.sqrt ((changesVariance [⟨0, 0⟩, ⟨86400000, 1⟩, ⟨172800000, 3⟩] : ℝ))
              / ((changesMean [⟨0, 0⟩, ⟨86400000, 1⟩, ⟨172800000, 3⟩] : ℝ)) * 100)) :=
  ⟨⟨by decide, (consistency_score_spec [⟨0, 5⟩]).1 (by decide)⟩,
    ⟨by decide,
      by norm_num [changesMean, dailyChanges, sortProgress, List.insertionSort,
        List.orderedInsert, GoalProgress.dateLe],
      (consistency_score_spec [⟨0, 0⟩, ⟨86400000, 1⟩, ⟨172800000, 3⟩]).2
        (by decide)
        (by norm_num [changesMean, dailyChanges, sortProgress, List.insertionSort,
          List.orderedInsert, GoalProgress.dateLe])⟩⟩

/-- C9: the analysis functions are deterministic and harbor no hidden
mutable state: with the call instant `now` an explicit input, running
`calculateGoalMetrics` again on the state the first call left behind (the
in-place-sorted array) returns exactly the first result, the array state is
then a fixed point, and rebuilding `MoodAnalytics` on the constructor-sorted
entries changes neither the engine state nor `calculateCorrelations`. -/
theorem analysis_functions_deterministic :
    (∀ (now : ℚ) (g : Goal) (pd : List GoalProgress),
        calculateGoalMetrics now g (goalMetricsArrayAfter pd)
            = calculateGoalMetrics now g pd ∧
          goalMetricsArrayAfter (goalMetricsArrayAfter pd) = goalMetricsArrayAfter pd) ∧
      ∀ entries : List MoodEntry,
        moodAnalyticsEntries (moodAnalyticsEntries entries) = moodAnalyticsEntries entries ∧
          calculateCorrelations (moodAnalyticsEntries (moodAnalyticsEntries entries))
            = calculateCorrelations (moodAnalyticsEntries entries) := by
  constructor
  · intro now g pd
    unfold goalMetricsArrayAfter
    by_cases h : 2 ≤ pd.length
    · rw [if_pos h, length_sortProgress, if_pos h,
        calculateGoalMetrics_sorted, sortProgress_idem]
      exact ⟨rfl, rfl⟩
    · rw [if_neg h, if_neg h]
      exact ⟨rfl, rfl⟩
  · intro entries
    exact ⟨moodAnalyticsEntries_idem entries,
      congrArg calculateCorrelations (moodAnalyticsEntries_idem entries)⟩

/-! ### Cauchy-Schwarz toolbox for the correlation bound -/

theorem sum_eq_range_getD (l : List ℚ) :
    l.sum = ∑ i ∈ Finset.range l.length, l.getD i 0 := by
  induction l with
  | nil => simp
  | cons a t ih =>
    rw [List.sum_cons, List.length_cons, Finset.sum_range_succ']
    simp only [List.getD_cons_succ, List.getD_cons_zero]
    rw [← ih]
    ring

theorem getD_map_of_lt (f : ℚ → ℚ) (l : List ℚ) (i : ℕ) (h : i < l.length) :
    (l.map f).getD i 0 = f (l.getD i 0) := by
  induction l generalizing i with
  | nil => simp at h
  | cons a t ih =>
    cases i with
    | zero => simp
    | succ j => simpa using ih j (by simpa using h)

theorem sum_map_eq_range (f : ℚ → ℚ) (l : List ℚ) :
    (l.map f).sum = ∑ i ∈ Finset.range l.length, f (l.getD i 0) := by
  rw [sum_eq_range_getD, List.length_map]
  exact Finset.sum_congr rfl fun i hi => getD_map_of_lt f l i (Finset.mem_range.mp hi)

theorem double_sum_prod (n : ℕ) (X Y : ℕ → ℚ) :
    ∑ p ∈ Finset.range n ×ˢ Finset.range n, (X p.1 - X p.2) * (Y p.1 - Y p.2)
      = 2 * ((n : ℚ) * (∑ i ∈ Finset.range n, X i * Y i)
          - (∑ i ∈ Finset.range n, X i) * ∑ i ∈ Finset.range n, Y i) := by
  rw [Finset.sum_product]
  have inner : ∀ i, (∑ j ∈ Finset.range n, (X i - X j) * (Y i - Y j))
      = (n : ℚ) * (X i * Y i) - X i * (∑ j ∈ Finset.range n, Y j)
        - (∑ j ∈ Finset.range n, X j) * Y i + ∑ j ∈ Finset.range n, X j * Y j := by
    intro i
    have hexp : ∀ j ∈ Finset.range n, (X i - X j) * (Y i - Y j)
        = X i * Y i - X i * Y j - X j * Y i + X j * Y j := fun j _ => by ring
    rw [Finset.sum_congr rfl hexp]
    simp only [Finset.sum_add_distrib, Finset.sum_sub_distrib, ← Finset.mul_sum,
      ← Finset.sum_mul, Finset.sum_const, Finset.card_range, nsmul_eq_mul]
    ring
  rw [Finset.sum_congr rfl fun i _ => inner i]
  simp only [Finset.sum_add_distrib, Finset.sum_sub_distrib, ← Finset.mul_sum,
    ← Finset.sum_mul, Finset.sum_const, Finset.card_range, nsmul_eq_mul]
  ring

theorem centered_cauchy_schwarz (n : ℕ) (X Y : ℕ → ℚ) :
    ((n : ℚ) * (∑ i ∈ Finset.range n, X i * Y i)
        - (∑ i ∈ Finset.range n, X i) * ∑ i ∈ Finset.range n, Y i) ^ 2
      ≤ ((n : ℚ) * (∑ i ∈ Finset.range n, X i * X i)
          - (∑ i ∈ Finset.range n, X i) * ∑ i ∈ Finset.range n, X i)
        * ((n : ℚ) * (∑ i ∈ Finset.range n, Y i * Y i)
          - (∑ i ∈ Finset.range n, Y i) * ∑ i ∈ Finset.range n, Y i) := by
  have hcs := Finset.sum_mul_sq_le_sq_mul_sq (Finset.range n ×ˢ Finset.range n)
    (fun p => X p.1 - X p.2) (fun p => Y p.1 - Y p.2)
  rw [double_sum_prod n X Y] at hcs
  have hB : ∑ p ∈ Finset.range n ×ˢ Finset.range n, (X p.1 - X p.2) ^ 2
      = 2 * ((n : ℚ) * (∑ i ∈ Finset.range n, X i * X i)
          - (∑ i ∈ Finset.range n, X i) * ∑ i ∈ Finset.range n, X i) := by
    rw [← double_sum_prod n X X]
    exact Finset.sum_congr rfl fun p _ => by ring
  have hC : ∑ p ∈ Finset.range n ×ˢ Finset.range n, (Y p.1 - Y p.2) ^ 2
      = 2 * ((n : ℚ) * (∑ i ∈ Finset.range n, Y i * Y i)
          - (∑ i ∈ Finset.range n, Y i) * ∑ i ∈ Finset.range n, Y i) := by
    rw [← double_sum_prod n Y Y]
    exact Finset.sum_congr rfl fun p _ => by ring
  rw [hB, hC] at hcs
  nlinarith [hcs]

theorem n_sumsq_sub_sq_nonneg (n : ℕ) (X : ℕ → ℚ) :
    0 ≤ (n : ℚ) * (∑ i ∈ Finset.range n, X i * X i)
        - (∑ i ∈ Finset.range n, X i) * ∑ i ∈ Finset.range n, X i := by
  have h := Finset.sum_mul_sq_le_sq_mul_sq (Finset.range n) (fun _ => (1 : ℚ)) X
  simp only [one_mul, one_pow, Finset.sum_const, Finset.card_range, nsmul_eq_mul,
    mul_one, pow_two] at h
  linarith [h]

theorem pearsonNumerator_sq_le (x y : List ℚ) (hlen : x.length = y.length) :
    pearsonNumerator x y ^ 2 ≤ pearsonDenomSq x y := by
  unfold pearsonNumerator pearsonDenomSq sumList sumSqList sumProd
  rw [sum_eq_range_getD x, sum_eq_range_getD y, sum_map_eq_range, sum_map_eq_range,
    ← hlen]
  exact centered_cauchy_schwarz x.length (fun i => x.getD i 0) (fun i => y.getD i 0)

theorem pearsonDenomSq_nonneg (x y : List ℚ) (hlen : x.length = y.length) :
    0 ≤ pearsonDenomSq x y := by
  unfold pearsonDenomSq sumList sumSqList
  rw [sum_eq_range_getD x, sum_eq_range_getD y, sum_map_eq_range, sum_map_eq_range,
    ← hlen]
  exact mul_nonneg (n_sumsq_sub_sq_nonneg x.length (fun i => x.getD i 0))
    (n_sumsq_sub_sq_nonneg x.length (fun i => y.getD i 0))

theorem sumProd_comm (x y : List ℚ) (hlen : x.length = y.length) :
    sumProd x y = sumProd y x := by
  unfold sumProd
  rw [← hlen]
  exact Finset.sum_congr rfl fun i _ => mul_comm _ _

/-- C3 -/
theorem pearson_r_bounded (x y : List ℚ) (h3 : 3 ≤ x.length)
    (hlen : x.length = y.length) (hd : pearsonDenomSq x y ≠ 0) :
    -1 ≤ (pearsonCorrelation x y).r ∧ (pearsonCorrelation x y).r ≤ 1 := by
  have hpos : 0 < pearsonDenomSq x y :=
    lt_of_le_of_ne (pearsonDenomSq_nonneg x y hlen) (Ne.symm hd)
  have hposR : (0 : ℝ) < ((pearsonDenomSq x y : ℚ) : ℝ) := by exact_mod_cast hpos
  have hsqpos : 0 < Real.sqrt ((pearsonDenomSq x y : ℚ) : ℝ) := Real.sqrt_pos.mpr hposR
  have hlt : ¬ x.length < 3 := not_lt.mpr h3
  have hr : (pearsonCorrelation x y).r
      = ((pearsonNumerator x y : ℚ) : ℝ) / Real.sqrt ((pearsonDenomSq x y : ℚ) : ℝ) := by
    unfold pearsonCorrelation
    rw [if_neg hlt]
    simp [ne_of_gt hsqpos]
  have hnum : (((pearsonNumerator x y : ℚ) : ℝ)) ^ 2 ≤ ((pearsonDenomSq x y : ℚ) : ℝ) := by
    have h := pearsonNumerator_sq_le x y hlen
    exact_mod_cast h
  have habs : |(pearsonCorrelation x y).r| ≤ 1 := by
    rw [hr, abs_div, abs_of_nonneg (Real.sqrt_nonneg _), div_le_one hsqpos]
    calc |((pearsonNumerator x y : ℚ) : ℝ)|
        = Real.sqrt ((((pearsonNumerator x y : ℚ) : ℝ)) ^ 2) :=
          (Real.sqrt_sq_eq_abs _).symm
      _ ≤ Real.sqrt ((pearsonDenomSq x y : ℚ) : ℝ) := Real.sqrt_le_sqrt hnum
  exact abs_le.mp habs

/-- C3 witness -/
theorem pearson_r_bounded_witness :
    3 ≤ ([1, 2, 3] : List ℚ).length ∧
      ([1, 2, 3] : List ℚ).length = ([1, 2, 4] : List ℚ).length ∧
      pearsonDenomSq [1, 2, 3] [1, 2, 4] ≠ 0 ∧
      (-1 ≤ (pearsonCorrelation [1, 2, 3] [1, 2, 4]).r ∧
        (pearsonCorrelation [1, 2, 3] [1, 2, 4]).r ≤ 1) :=
  ⟨by decide, rfl,
    by norm_num [pearsonDenomSq, sumList, sumSqList, sumProd, Finset.sum_range_succ],
    pearson_r_bounded [1, 2, 3] [1, 2, 4] (by decide) rfl
      (by norm_num [pearsonDenomSq, sumList, sumSqList, sumProd, Finset.sum_range_succ])⟩

/-- C4 -/
theorem pearson_insufficient_data (x y : List ℚ) :
    (x.length < 3 → pearsonCorrelation x y = ⟨0, 1, x.length⟩) ∧
      (Real.sqrt ((pearsonDenomSq x y : ℚ) : ℝ) = 0 →
        (pearsonCorrelation x y).r = 0) := by
  constructor
  · intro h
    unfold pearsonCorrelation
    rw [if_pos h]
  · intro h0
    unfold pearsonCorrelation
    by_cases h : x.length < 3
    · rw [if_pos h]
    · rw [if_neg h]
      simp [h0]

/-- C4 witness -/
theorem pearson_insufficient_data_witness :
    (([1, 2] : List ℚ).length < 3 ∧
      pearsonCorrelation [1, 2] [3, 4] = ⟨0, 1, ([1, 2] : List ℚ).length⟩) ∧
      (Real.sqrt ((pearsonDenomSq [1, 1, 1] [1, 2, 3] : ℚ) : ℝ) = 0 ∧
        (pearsonCorrelation [1, 1, 1] [1, 2, 3]).r = 0) :=
  ⟨⟨by decide, (pearson_insufficient_data [1, 2] [3, 4]).1 (by decide)⟩,
    ⟨by
      have h : pearsonDenomSq [1, 1, 1] [1, 2, 3] = 0 := by
        norm_num [pearsonDenomSq, sumList, sumSqList, sumProd, Finset.sum_range_succ]
      rw [h]
      norm_num,
      (pearson_insufficient_data [1, 1, 1] [1, 2, 3]).2 (by
        have h : pearsonDenomSq [1, 1, 1] [1, 2, 3] = 0 := by
          norm_num [pearsonDenomSq, sumList, sumSqList, sumProd, Finset.sum_range_succ]
        rw [h]
        norm_num)⟩⟩

/-- C5 -/
theorem pearson_symmetric (x y : List ℚ) (hlen : x.length = y.length) :
    pearsonCorrelation x y = pearsonCorrelation y x := by
  have h1 : pearsonNumerator x y = pearsonNumerator y x := by
    unfold pearsonNumerator
    rw [sumProd_comm x y hlen, ← hlen]
    ring
  have h2 : pearsonDenomSq x y = pearsonDenomSq y x := by
    unfold pearsonDenomSq
    rw [← hlen]
    ring
  unfold pearsonCorrelation
  rw [h1, h2, hlen]

/-- C5 witness -/
theorem pearson_symmetric_witness :
    pearsonCorrelation [1, 2, 3] [4, 5, 6] = pearsonCorrelation [4, 5, 6] [1, 2, 3] :=
  pearson_symmetric [1, 2, 3] [4, 5, 6] rfl

theorem foldl_max_facts (l : List ℚ) (a : ℚ) :
    (l.foldl max a = a ∨ l.foldl max a ∈ l) ∧ a ≤ l.foldl max a ∧
      ∀ x ∈ l, x ≤ l.foldl max a := by
  induction l generalizing a with
  | nil => exact ⟨Or.inl rfl, le_refl a, by simp⟩
  | cons b t ih =>
    obtain ⟨hmem, hle, hall⟩ := ih (max a b)
    refine ⟨?_, le_trans (le_max_left a b) hle, ?_⟩
    · rcases hmem with h | h
      · rcases max_choice a b with h' | h'
        · exact Or.inl (by rw [List.foldl_cons, h, h'])
        · exact Or.inr (by rw [List.foldl_cons, h, h']; exact List.mem_cons_self _ _)
      · exact Or.inr (List.mem_cons_of_mem _ h)
    · intro x hx
      rcases List.mem_cons.mp hx with rfl | hx
      · exact le_trans (le_max_right a x) hle
      · exact hall x hx

theorem foldl_min_facts (l : List ℚ) (a : ℚ) :
    (l.foldl min a = a ∨ l.foldl min a ∈ l) ∧ l.foldl min a ≤ a ∧
      ∀ x ∈ l, l.foldl min a ≤ x := by
  induction l generalizing a with
  | nil => exact ⟨Or.inl rfl, le_refl a, by simp⟩
  | cons b t ih =>
    obtain ⟨hmem, hle, hall⟩ := ih (min a b)
    refine ⟨?_, le_trans hle (min_le_left a b), ?_⟩
    · rcases hmem with h | h
      · rcases min_choice a b with h' | h'
        · exact Or.inl (by rw [List.foldl_cons, h, h'])
        · exact Or.inr (by rw [List.foldl_cons, h, h']; exact List.mem_cons_self _ _)
      · exact Or.inr (List.mem_cons_of_mem _ h)
    · intro x hx
      rcases List.mem_cons.mp hx with rfl | hx
      · exact le_trans hle (min_le_right a x)
      · exact hall x hx

theorem listMax_facts (l : List ℚ) (h : l ≠ []) :
    listMax l ∈ l ∧ ∀ x ∈ l, x ≤ listMax l := by
  cases l with
  | nil => exact absurd rfl h
  | cons a t =>
    obtain ⟨hmem, hle, hall⟩ := foldl_max_facts t a
    constructor
    · rcases hmem with h' | h'
      · rw [listMax, h']
        exact List.mem_cons_self _ _
      · exact List.mem_cons_of_mem _ (by rw [listMax]; exact h')
    · intro x hx
      rcases List.mem_cons.mp hx with rfl | hx
      · exact hle
      · exact hall x hx

theorem listMin_facts (l : List ℚ) (h : l ≠ []) :
    listMin l ∈ l ∧ ∀ x ∈ l, listMin l ≤ x := by
  cases l with
  | nil => exact absurd rfl h
  | cons a t =>
    obtain ⟨hmem, hle, hall⟩ := foldl_min_facts t a
    constructor
    · rcases hmem with h' | h'
      · rw [listMin, h']
        exact List.mem_cons_self _ _
      · exact List.mem_cons_of_mem _ (by rw [listMin]; exact h')
    · intro x hx
      rcases List.mem_cons.mp hx with rfl | hx
      · exact hle
      · exact hall x hx

theorem mem_weekdayList (d : Weekday) : d ∈ weekdayList := by
  cases d <;> simp [weekdayList]

theorem mem_dayAverages (entries : List MoodEntry) (da : DayAverage) :
    da ∈ dayAverages entries ↔
      0 < weekdayCount entries da.day ∧
        da = ⟨da.day, weekdayMean entries da.day, weekdayCount entries da.day⟩ := by
  unfold dayAverages
  simp only [List.mem_filter, List.mem_map, decide_eq_true_eq]
  constructor
  · rintro ⟨⟨d, _, rfl⟩, hc⟩
    simp only at hc
    exact ⟨hc, by simp [hc]⟩
  · rintro ⟨hc, heq⟩
    exact ⟨⟨da.day, mem_weekdayList da.day, by rw [heq]; simp [hc]⟩, by rw [heq]; simpa using hc⟩

/-- C7: with at least 14 entries and at least 4 weekdays represented,
`detectWeeklyPatterns` returns nothing when the weekday-mean variation is
below 0.5, and otherwise exactly one pattern whose peak (resp. low) days are
exactly the represented weekdays whose mean mood is within 0.3 of the
maximum (resp. minimum) weekday mean, with strength `min(1, variation/3)`;
the first conjunct certifies that `maxWeekdayMean`/`minWeekdayMean` really
are the extrema of the weekday means. -/
theorem weekly_pattern_spec (entries : List MoodEntry)
    (h14 : 14 ≤ entries.length) (h4 : 4 ≤ (dayAverages entries).length) :
    ((∃ d, 0 < weekdayCount entries d ∧
        weekdayMean entries d = maxWeekdayMean entries) ∧
      (∀ d, 0 < weekdayCount entries d →
        weekdayMean entries d ≤ maxWeekdayMean entries) ∧
      (∃ d, 0 < weekdayCount entries d ∧
        weekdayMean entries d = minWeekdayMean entries) ∧
      (∀ d, 0 < weekdayCount entries d →
        minWeekdayMean entries ≤ weekdayMean entries d)) ∧
      (weekdayVariation entries < 1 / 2 → detectWeeklyPatterns entries = []) ∧
      (1 / 2 ≤ weekdayVariation entries →
        ∃ p, detectWeeklyPatterns entries = [p] ∧
          p.strength = min 1 (weekdayVariation entries / 3) ∧
          (∀ d, d ∈ p.peakDays ↔
            0 < weekdayCount entries d ∧
              maxWeekdayMean entries - 3 / 10 ≤ weekdayMean entries d) ∧
          (∀ d, d ∈ p.lowDays ↔
            0 < weekdayCount entries d ∧
              weekdayMean entries d ≤ minWeekdayMean entries + 3 / 10)) := by
  have hne : (dayAverages entries).map DayAverage.average ≠ [] := by
    intro h0
    rw [List.map_eq_nil_iff] at h0
    rw [h0] at h4
    simp at h4
  obtain ⟨hmaxmem, hmaxle⟩ := listMax_facts _ hne
  obtain ⟨hminmem, hminle⟩ := listMin_facts _ hne
  have hrecmem : ∀ d, 0 < weekdayCount entries d →
      (⟨d, weekdayMean entries d, weekdayCount entries d⟩ : DayAverage)
        ∈ dayAverages entries := fun d hc =>
    (mem_dayAverages entries _).mpr ⟨by simpa using hc, rfl⟩
  refine ⟨⟨?_, ?_, ?_, ?_⟩, ?_, ?_⟩
  · obtain ⟨da, hda, havg⟩ := List.mem_map.mp hmaxmem
    obtain ⟨hc, hdaeq⟩ := (mem_dayAverages entries da).mp hda
    refine ⟨da.day, hc, ?_⟩
    have h1 : da.average = weekdayMean entries da.day := by rw [hdaeq]
    rw [← h1]
    exact havg
  · intro d hc
    have := hmaxle _ (List.mem_map.mpr
      ⟨⟨d, weekdayMean entries d, weekdayCount entries d⟩, hrecmem d hc, rfl⟩)
    exact this
  · obtain ⟨da, hda, havg⟩ := List.mem_map.mp hminmem
    obtain ⟨hc, hdaeq⟩ := (mem_dayAverages entries da).mp hda
    refine ⟨da.day, hc, ?_⟩
    have h1 : da.average = weekdayMean entries da.day := by rw [hdaeq]
    rw [← h1]
    exact havg
  · intro d hc
    have := hminle _ (List.mem_map.mpr
      ⟨⟨d, weekdayMean entries d, weekdayCount entries d⟩, hrecmem d hc, rfl⟩)
    exact this
  · intro hvar
    unfold detectWeeklyPatterns
    rw [if_neg (not_lt.mpr h14), if_neg (not_lt.mpr h4), if_pos hvar]
  · intro hvar
    have hvar' : ¬ weekdayVariation entries < 1 / 2 := not_lt.mpr hvar
    refine ⟨⟨min 1 (weekdayVariation entries / 3),
      ((dayAverages entries).filter
        (fun d => decide (maxWeekdayMean entries - 3 / 10 ≤ d.average))).map (·.day),
      ((dayAverages entries).filter
        (fun d => decide (d.average ≤ minWeekdayMean entries + 3 / 10))).map (·.day)⟩,
      ?_, rfl, ?_, ?_⟩
    · unfold detectWeeklyPatterns
      rw [if_neg (not_lt.mpr h14), if_neg (not_lt.mpr h4), if_neg hvar']
    · intro d
      simp only [List.mem_map, List.mem_filter, decide_eq_true_eq]
      constructor
      · rintro ⟨da, ⟨hmem, hP⟩, rfl⟩
        obtain ⟨hc, hdaeq⟩ := (mem_dayAverages entries da).mp hmem
        have h1 : da.average = weekdayMean entries da.day := by rw [hdaeq]
        exact ⟨hc, by rw [← h1]; exact hP⟩
      · rintro ⟨hc, hP⟩
        exact ⟨⟨d, weekdayMean entries d, weekdayCount entries d⟩,
          ⟨hrecmem d hc, hP⟩, rfl⟩
    · intro d
      simp only [List.mem_map, List.mem_filter, decide_eq_true_eq]
      constructor
      · rintro ⟨da, ⟨hmem, hP⟩, rfl⟩
        obtain ⟨hc, hdaeq⟩ := (mem_dayAverages entries da).mp hmem
        have h1 : da.average = weekdayMean entries da.day := by rw [hdaeq]
        exact ⟨hc, by rw [← h1]; exact hP⟩
      · rintro ⟨hc, hP⟩
        exact ⟨⟨d, weekdayMean entries d, weekdayCount entries d⟩,
          ⟨hrecmem d hc, hP⟩, rfl⟩

example : 4 ≤ (dayAverages sampleWeekEntries).length := by decide

/-- Witness for C7 at the fixed 14-entry example (7 weekdays present). -/
theorem weekly_pattern_spec_witness :
    14 ≤ sampleWeekEntries.length ∧
      4 ≤ (dayAverages sampleWeekEntries).length ∧
      (weekdayVariation sampleWeekEntries < 1 / 2 →
        detectWeeklyPatterns sampleWeekEntries = []) :=
  ⟨by decide, by decide,
    (weekly_pattern_spec sampleWeekEntries (by decide) (by decide)).2.1⟩

theorem sumList_map_const_sub (c : ℚ) (y : List ℚ) :
    sumList (y.map (fun v => c - v)) = c * y.length - sumList y := by
  unfold sumList
  induction y with
  | nil => simp
  | cons a t ih =>
    simp only [List.map_cons, List.sum_cons, List.length_cons]
    rw [ih]
    push_cast
    ring

theorem sumProd_map_const_sub (c : ℚ) (x y : List ℚ) (hlen : x.length = y.length) :
    sumProd x (y.map (fun v => c - v)) = c * sumList x - sumProd x y := by
  unfold sumProd sumList
  have h1 : ∀ i ∈ Finset.range x.length,
      x.getD i 0 * (y.map (fun v => c - v)).getD i 0
        = c * x.getD i 0 - x.getD i 0 * y.getD i 0 := by
    intro i hi
    rw [getD_map_of_lt _ _ _ (by rw [← hlen]; exact Finset.mem_range.mp hi)]
    ring
  rw [Finset.sum_congr rfl h1, Finset.sum_sub_distrib, ← Finset.mul_sum,
    ← sum_eq_range_getD]

theorem regSlope_inverted (c : ℚ) (x y : List ℚ) (hlen : x.length = y.length) :
    regSlope x (y.map (fun v => c - v)) = - regSlope x y := by
  unfold regSlope
  rw [sumProd_map_const_sub c x y hlen, sumList_map_const_sub c y, ← hlen]
  have h1 : (x.length : ℚ) * (c * sumList x - sumProd x y)
      - sumList x * (c * x.length - sumList y)
      = -((x.length : ℚ) * sumProd x y - sumList x * sumList y) := by ring
  rw [h1, neg_div]

theorem linearRegression_denom_ne (x y : List ℚ) (reg : LinReg)
    (h : linearRegression x y = some reg) : regDenom x ≠ 0 := by
  intro hd
  unfold linearRegression at h
  rw [if_pos hd] at h
  exact Option.noConfusion h

theorem linearRegression_slope (x y : List ℚ) (reg : LinReg)
    (h : linearRegression x y = some reg) : reg.slope = regSlope x y := by
  have hd := linearRegression_denom_ne x y reg h
  unfold linearRegression at h
  rw [if_neg hd] at h
  rw [← Option.some.inj h]

theorem linearRegression_some_of (x y z : List ℚ) (reg : LinReg)
    (h : linearRegression x y = some reg) :
    ∃ reg2, linearRegression x z = some reg2 := by
  have hd := linearRegression_denom_ne x y reg h
  unfold linearRegression
  rw [if_neg hd]
  exact ⟨_, rfl⟩

theorem trendFor_metric (entries : List MoodEntry) (m : Metric) :
    (trendFor entries m).metric = m := by
  unfold trendFor
  cases linearRegression (timeIndices entries)
    (entries.map (fun e => getEntryValue e m)) <;> rfl

theorem length_timeIndices (entries : List MoodEntry) :
    (timeIndices entries).length = entries.length := List.length_map _ _

theorem stress_values_inverted (entries : List MoodEntry) :
    entries.map (fun e => getEntryValue e Metric.stress)
      = (entries.map (fun e => e.stress)).map (fun v => 10 - v) := by
  rw [List.map_map]
  rfl

theorem trendFor_stress_of_raw (entries : List MoodEntry) (rreg : LinReg)
    (hraw : linearRegression (timeIndices entries)
      (entries.map (fun e => e.stress)) = some rreg) :
    (trendFor entries Metric.stress).magnitude = some |7 * rreg.slope| ∧
      (1 / 10 < 7 * rreg.slope →
        (trendFor entries Metric.stress).direction = Direction.decreasing) ∧
      (7 * rreg.slope < -(1 / 10) →
        (trendFor entries Metric.stress).direction = Direction.increasing) := by
  have hlen : (timeIndices entries).length
      = (entries.map (fun e => e.stress)).length := by
    rw [length_timeIndices, List.length_map]
  obtain ⟨ireg, hinv⟩ := linearRegression_some_of _ _
    (entries.map (fun e => getEntryValue e Metric.stress)) rreg hraw
  have hslope : ireg.slope = - rreg.slope := by
    rw [linearRegression_slope _ _ _ hinv, linearRegression_slope _ _ _ hraw,
      stress_values_inverted entries, regSlope_inverted 10 _ _ hlen]
  simp only [trendFor, hinv]
  have hmag : |ireg.slope * 7| = |7 * rreg.slope| := by
    rw [hslope, show -rreg.slope * 7 = -(7 * rreg.slope) by ring, abs_neg]
  refine ⟨by rw [hmag], fun h7 => ?_, fun h7 => ?_⟩
  · have hns : ¬ |ireg.slope * 7| < 1 / 10 := by
      rw [hmag]
      exact not_lt.mpr (le_trans (le_of_lt h7) (le_abs_self _))
    have hnp : ¬ 0 < ireg.slope * 7 := by
      rw [hslope]
      nlinarith [h7]
    rw [if_neg hns, if_neg hnp]
  · have hns : ¬ |ireg.slope * 7| < 1 / 10 := by
      rw [hmag]
      refine not_lt.mpr (le_trans ?_ (neg_le_abs _))
      nlinarith [h7]
    have hp : 0 < ireg.slope * 7 := by
      rw [hslope]
      nlinarith [h7]
    rw [if_neg hns, if_pos hp]

theorem trendFor_mood_of_raw (entries : List MoodEntry) (mreg : LinReg)
    (hm : linearRegression (timeIndices entries)
      (entries.map (fun e => e.mood)) = some mreg) :
    (trendFor entries Metric.mood).magnitude = some |7 * mreg.slope| ∧
      (1 / 10 < 7 * mreg.slope →
        (trendFor entries Metric.mood).direction = Direction.increasing) := by
  have hmaps : entries.map (fun e => getEntryValue e Metric.mood)
      = entries.map (fun e => e.mood) := rfl
  simp only [trendFor, hmaps, hm]
  have hs : mreg.slope = regSlope (timeIndices entries)
      (entries.map (fun e => e.mood)) := linearRegression_slope _ _ _ hm
  refine ⟨by rw [mul_comm], fun h7 => ?_⟩
  have hns : ¬ |mreg.slope * 7| < 1 / 10 := by
    rw [mul_comm]
    exact not_lt.mpr (le_trans (le_of_lt h7) (le_abs_self _))
  have hp : 0 < mreg.slope * 7 := by nlinarith [h7]
  rw [if_neg hns, if_pos hp]

/-- C10: `analyzeTrends` reports the stress trend from the inverted series
`10 - stress` (via `getEntryValue`): when the regression of the raw stress
values against the day index has weekly slope above the 0.1 stability
threshold, the reported stress direction is `decreasing` (and vice versa),
while a metric like mood is regressed on its raw values. -/
theorem stress_trend_inverted (entries : List MoodEntry) (rreg : LinReg)
    (h : minEntriesForTrends ≤ entries.length)
    (hraw : linearRegression (timeIndices entries)
      (entries.map (fun e => e.stress)) = some rreg) :
    (∃ t ∈ analyzeTrends entries, t.metric = Metric.stress) ∧
      (∀ t ∈ analyzeTrends entries, t.metric = Metric.stress →
        t.magnitude = some |7 * rreg.slope| ∧
          (1 / 10 < 7 * rreg.slope → t.direction = Direction.decreasing) ∧
          (7 * rreg.slope < -(1 / 10) → t.direction = Direction.increasing)) ∧
      (∀ mreg : LinReg,
        linearRegression (timeIndices entries)
            (entries.map (fun e => e.mood)) = some mreg →
        ∀ t ∈ analyzeTrends entries, t.metric = Metric.mood →
          t.magnitude = some |7 * mreg.slope| ∧
            (1 / 10 < 7 * mreg.slope → t.direction = Direction.increasing)) := by
  have hguard : ¬ entries.length < minEntriesForTrends := not_lt.mpr h
  have hmem : ∀ t, t ∈ analyzeTrends entries ↔ t ∈ metricList.map (trendFor entries) := by
    intro t
    unfold analyzeTrends
    rw [if_neg hguard]
    exact List.mem_insertionSort trendGe
  have hchar : ∀ t ∈ analyzeTrends entries, ∀ m, t.metric = m →
      t = trendFor entries m := by
    intro t ht m hm
    obtain ⟨m2, _, rfl⟩ := List.mem_map.mp ((hmem t).mp ht)
    rw [trendFor_metric] at hm
    rw [hm]
  refine ⟨?_, ?_, ?_⟩
  · exact ⟨trendFor entries Metric.stress,
      (hmem _).mpr (List.mem_map.mpr ⟨Metric.stress, by simp [metricList], rfl⟩),
      trendFor_metric entries Metric.stress⟩
  · intro t ht hm
    rw [hchar t ht Metric.stress hm]
    exact trendFor_stress_of_raw entries rreg hraw
  · intro mreg hmr t ht hm
    rw [hchar t ht Metric.mood hm]
    exact trendFor_mood_of_raw entries mreg hmr

/-- A fixed 14-day example with stress rising linearly (stress = day index),
used as concrete witness input for the trend claims. -/
def sampleTrendEntries : List MoodEntry :=
  [⟨0 * 86400000, .sunday, 5, 5, 0, 7, 8, 30, 5⟩,
   ⟨1 * 86400000, .sunday, 5, 5, 1, 7, 8, 30, 5⟩,
   ⟨2 * 86400000, .sunday, 5, 5, 2, 7, 8, 30, 5⟩,
   ⟨3 * 86400000, .sunday, 5, 5, 3, 7, 8, 30, 5⟩,
   ⟨4 * 86400000, .sunday, 5, 5, 4, 7, 8, 30, 5⟩,
   ⟨5 * 86400000, .sunday, 5, 5, 5, 7, 8, 30, 5⟩,
   ⟨6 * 86400000, .sunday, 5, 5, 6, 7, 8, 30, 5⟩,
   ⟨7 * 86400000, .sunday, 5, 5, 7, 7, 8, 30, 5⟩,
   ⟨8 * 86400000, .sunday, 5, 5, 8, 7, 8, 30, 5⟩,
   ⟨9 * 86400000, .sunday, 5, 5, 9, 7, 8, 30, 5⟩,
   ⟨10 * 86400000, .sunday, 5, 5, 10, 7, 8, 30, 5⟩,
   ⟨11 * 86400000, .sunday, 5, 5, 11, 7, 8, 30, 5⟩,
   ⟨12 * 86400000, .sunday, 5, 5, 12, 7, 8, 30, 5⟩,
   ⟨13 * 86400000, .sunday, 5, 5, 13, 7, 8, 30, 5⟩]

theorem sampleTrend_regression :
    linearRegression (timeIndices sampleTrendEntries)
      (sampleTrendEntries.map (fun e => e.stress)) = some ⟨1, 0, some 1⟩ := by
  have htime : timeIndices sampleTrendEntries
      = [0, 1, 2, 3, 4, 5, 6, 7, 8, 9, 10, 11, 12, 13] := by
    norm_num [timeIndices, firstDate, sampleTrendEntries, msPerDay]
  have hstress : sampleTrendEntries.map (fun e => e.stress)
      = [0, 1, 2, 3, 4, 5, 6, 7, 8, 9, 10, 11, 12, 13] := rfl
  rw [htime, hstress]
  have hl : sumList ([0, 1, 2, 3, 4, 5, 6, 7, 8, 9, 10, 11, 12, 13] : List ℚ)
      = 91 := by norm_num [sumList]
  have hq : sumSqList ([0, 1, 2, 3, 4, 5, 6, 7, 8, 9, 10, 11, 12, 13] : List ℚ)
      = 819 := by norm_num [sumSqList]
  have hp : sumProd [0, 1, 2, 3, 4, 5, 6, 7, 8, 9, 10, 11, 12, 13]
      [0, 1, 2, 3, 4, 5, 6, 7, 8, 9, 10, 11, 12, 13] = 819 := by
    norm_num [sumProd, Finset.sum_range_succ]
  have hd : regDenom [0, 1, 2, 3, 4, 5, 6, 7, 8, 9, 10, 11, 12, 13] = 3185 := by
    norm_num [regDenom, hl, hq]
  have hs : regSlope [0, 1, 2, 3, 4, 5, 6, 7, 8, 9, 10, 11, 12, 13]
      [0, 1, 2, 3, 4, 5, 6, 7, 8, 9, 10, 11, 12, 13] = 1 := by
    norm_num [regSlope, hd, hp, hl]
  have hi : regIntercept [0, 1, 2, 3, 4, 5, 6, 7, 8, 9, 10, 11, 12, 13]
      [0, 1, 2, 3, 4, 5, 6, 7, 8, 9, 10, 11, 12, 13] = 0 := by
    norm_num [regIntercept, hs, hl]
  unfold linearRegression
  rw [if_neg (by rw [hd]; norm_num)]
  rw [hs, hi, hl]
  norm_num [Finset.sum_range_succ]

/-- Witness for C10: 14 entries with stress rising one point per day; the
raw-stress regression slope is 1 (weekly change 7 > 0.1), and the reported
stress trend direction is `decreasing`. -/
theorem stress_trend_inverted_witness :
    minEntriesForTrends ≤ sampleTrendEntries.length ∧
      linearRegression (timeIndices sampleTrendEntries)
        (sampleTrendEntries.map (fun e => e.stress)) = some ⟨1, 0, some 1⟩ ∧
      ∃ t ∈ analyzeTrends sampleTrendEntries,
        t.metric = Metric.stress ∧ t.direction = Direction.decreasing := by
  refine ⟨by decide, sampleTrend_regression, ?_⟩
  obtain ⟨⟨t, ht, hm⟩, hall, _⟩ := stress_trend_inverted sampleTrendEntries
    ⟨1, 0, some 1⟩ (by decide) sampleTrend_regression
  exact ⟨t, ht, hm, (hall t ht hm).2.1 (by norm_num)⟩

end HerFlow
